import Mathlib

/-!
Shallow embedding of the NCI host stack (src/src/rust/nci/nci.rs,
src/src/rust/nci/api.rs) and of the Casimir NFCC emulator controller
(src/tools/casimir/src/controller.rs), together with theorems settling the
frozen specification claims.

Conventions of the embedding:
* Rust `u8` values become `Nat`; a reduction `% 256` is written exactly where
  the source arithmetic can overflow (the credit counter addition).
* Fallible or panicking code becomes `Except Unit`: `.error ()` marks a panic
  (`unwrap` on `None`, `panic!`, `assert!` failure, `todo!`).
* The tokio channels become explicit output lists: every packet handed to the
  outbound transport and every user-callback invocation is collected in order.
-/

namespace NfcNci

/-- Packet Boundary Flag, octet 0 bit 4 of every NCI packet header:
`CompleteOrFinal` = 0, `Incomplete` = 1 (more segments follow). -/
inductive PacketBoundaryFlag
  | CompleteOrFinal
  | Incomplete
deriving DecidableEq, Repr

/-- Wire encoding of the PBF bit (spec section 3: bit 4 of octet 0;
0 = Complete/Final, 1 = Incomplete). -/
def PacketBoundaryFlag.toBit : PacketBoundaryFlag → Nat
  | .CompleteOrFinal => 0
  | .Incomplete => 1

/-- An NCI data packet (MT = 0): Conn ID (4 bits), PBF, credit-return count
CR (2 bits), and payload bytes. Mirrors `nfc_packets::nci::DataPacket`. -/
structure DataPacket where
  conn_id : Nat
  pbf : PacketBoundaryFlag
  cr : Nat
  payload : List Nat
deriving DecidableEq, Repr

/-- Modelled from the spec: the byte-level codec lives in the external
code-generated `nfc_packets` crate (out of scope per spec section 1); the data
packet wire format is given in spec section 6:
octet 0 = 0b000 | PBF (1 bit) | Conn ID (4 bits), octet 1 = CR (2 bits) | RFU,
octet 2 = payload length, then the payload bytes. This is `DataPacket::to_bytes`. -/
def DataPacket.toBytes (p : DataPacket) : List Nat :=
  (p.pbf.toBit * 16 + p.conn_id % 16) :: (p.cr % 4) * 64 :: p.payload.length % 256 :: p.payload

/-- Modelled from the spec: `DataPacket::specialize` of the external codec
returns the `Payload` child exactly when payload bytes are present
(spec section 4.1: a destructuring operation returning a variant tagged by
packet kind). Result `some bytes` models the `Payload(bytes)` child. -/
def DataPacket.specialize (p : DataPacket) : Option (List Nat) :=
  if p.payload.isEmpty then none else some p.payload

/-- One user-callback invocation `cb(conn_id, event, data)` recorded by the
receive path (the callbacks have type `fn(u8, u16, &[u8])`). -/
structure CallbackEvent where
  conn_id : Nat
  event : Nat
  data : List Nat
deriving DecidableEq, Repr

/-- `ConnectionParameters` of nci.rs (lines 132-139): the per-connection
callback (modelled by presence only; invocations are recorded as
`CallbackEvent` outputs), maximum payload size, current NFCC credit count,
outbound send queue and inbound reassembly queue. -/
structure ConnectionParameters where
  callback : Option Unit
  max_payload_size : Nat
  nfcc_credits_avail : Nat
  sendq : List DataPacket
  recvq : List DataPacket
deriving DecidableEq, Repr

/-- The credit-drain loop shared by `add_credits` (nci.rs 200-203) and
`send_packet` (nci.rs 238-241): while the queue is non-empty and credits are
positive, pop the front packet, hand it to the transport and decrement the
counter. Returns (remaining credits, remaining queue, packets sent in order). -/
def drainQueue : Nat → List DataPacket → Nat × List DataPacket × List DataPacket
  | creds, [] => (creds, [], [])
  | 0, q => (0, q, [])
  | creds + 1, pkt :: rest =>
    let r := drainQueue creds rest
    (r.1, r.2.1, pkt :: r.2.2)

/-- `LogicalConnectionsRegistry::add_credits` (nci.rs 196-205), restricted to
the connection found in the registry: add `ncreds` to the u8 credit counter
(the source addition is `u8 + u8`, hence the `% 256`), then drain the send
queue. Returns the new parameters and the packets handed to the transport. -/
def addCreditsConn (cp : ConnectionParameters) (ncreds : Nat) :
    ConnectionParameters × List DataPacket :=
  let r := drainQueue ((cp.nfcc_credits_avail + ncreds) % 256) cp.sendq
  ({ cp with nfcc_credits_avail := r.1, sendq := r.2.1 }, r.2.2)

/-- The splitting loop of `LogicalConnectionsRegistry::send_packet`
(nci.rs 213-233): while the remaining payload exceeds `mps` bytes, emit an
`Incomplete` piece of exactly `mps` bytes; finally, if bytes remain, emit a
`CompleteOrFinal` piece carrying them. Every piece shares `conn_id` and has
CR = 0. (For `mps = 0` the source loop would not terminate; the claims only
concern `mps > 0`, and this equation returns the final piece there.) -/
def splitPayload (conn_id mps : Nat) (p : List Nat) : List DataPacket :=
  if _h : 0 < mps ∧ mps < p.length then
    ⟨conn_id, .Incomplete, 0, p.take mps⟩ :: splitPayload conn_id mps (p.drop mps)
  else if p.isEmpty then [] else [⟨conn_id, .CompleteOrFinal, 0, p⟩]
termination_by p.length
decreasing_by
  simp only [List.length_drop]
  omega

/-- `LogicalConnectionsRegistry::send_packet` (nci.rs 208-243), restricted to
the connection found in the registry: if the packet has a payload child and it
exceeds `max_payload_size`, push the split pieces onto the send queue, else
push the packet as-is (a packet with no payload child is dropped); then drain
the queue up to the credit limit. -/
def sendPacketConn (cp : ConnectionParameters) (pkt : DataPacket) :
    ConnectionParameters × List DataPacket :=
  let cp1 :=
    match pkt.specialize with
    | some p =>
      if cp.max_payload_size < p.length then
        { cp with sendq := cp.sendq ++ splitPayload pkt.conn_id cp.max_payload_size p }
      else
        { cp with sendq := cp.sendq ++ [pkt] }
    | none => cp
  let r := drainQueue cp1.nfcc_credits_avail cp1.sendq
  ({ cp1 with nfcc_credits_avail := r.1, sendq := r.2.1 }, r.2.2)

/-- The reassembly buffer built by `send_callback` (nci.rs 262-275) from the
receive queue once a CompleteOrFinal segment arrived: one status byte 0, then
the FIRST queued packet's full serialized bytes (`pkt.to_bytes()`, header
included), then the payload child of each remaining packet. -/
def reassembleBuffer : List DataPacket → List Nat
  | [] => [0]
  | first :: rest =>
    0 :: (first.toBytes ++ (rest.map fun q => (DataPacket.specialize q).getD []).flatten)

/-- `LogicalConnectionsRegistry::send_callback` (nci.rs 246-281), restricted to
the connection found in the registry (an absent connection is handled by the
registry wrapper below): credit CR returns first, then `done` is whether PBF is
CompleteOrFinal; if not done and the receive queue is empty the callback
(panicking via `unwrap` if none is installed, modelled by `.error ()`) fires
with event `NFC_DATA_START_CEVT` = 5 and empty data; the packet is queued; if
done the callback fires with event `NFC_DATA_CEVT` = 3 and the reassembly
buffer, and the receive queue is emptied. Returns the new parameters, the
packets sent to the transport by the credit drain, and the callback events. -/
def sendCallbackConn (cp : ConnectionParameters) (pkt : DataPacket) :
    Except Unit (ConnectionParameters × List DataPacket × List CallbackEvent) :=
  let r := if 0 < pkt.cr then addCreditsConn cp pkt.cr else (cp, [])
  let cp1 := r.1
  let sent := r.2
  if pkt.pbf = PacketBoundaryFlag.CompleteOrFinal then
    match cp1.callback with
    | none => .error ()
    | some _ =>
      .ok ({ cp1 with recvq := [] }, sent,
           [⟨pkt.conn_id, 3, reassembleBuffer (cp1.recvq ++ [pkt])⟩])
  else
    if cp1.recvq = [] then
      match cp1.callback with
      | none => .error ()
      | some _ =>
        .ok ({ cp1 with recvq := cp1.recvq ++ [pkt] }, sent, [⟨pkt.conn_id, 5, []⟩])
    else
      .ok ({ cp1 with recvq := cp1.recvq ++ [pkt] }, sent, [])

/-- Feed a list of inbound data packets through `send_callback` one by one on
the same connection, collecting the callback events (the receive path of the
dispatcher delivers them in arrival order, nci.rs 388). -/
def processSegments (cp : ConnectionParameters) :
    List DataPacket → Except Unit (ConnectionParameters × List CallbackEvent)
  | [] => .ok (cp, [])
  | pkt :: rest =>
    match sendCallbackConn cp pkt with
    | .error e => .error e
    | .ok r =>
      match processSegments r.1 rest with
      | .error e => .error e
      | .ok r2 => .ok (r2.1, r.2.2 ++ r2.2)

/-- One API-side operation on a logical connection: `send_packet` submission
or a credit grant (`add_credits`, e.g. from a ConnCreditsNotification). -/
inductive ConnOp
  | submit (pkt : DataPacket)
  | credits (n : Nat)
deriving Repr

/-- Total credits granted by a list of operations (the r of the credit
conservation law). -/
def sumCredits : List ConnOp → Nat
  | [] => 0
  | .submit _ :: rest => sumCredits rest
  | .credits n :: rest => n + sumCredits rest

/-- Run a list of connection operations, collecting every packet handed to the
transport in order. -/
def runConnOps (cp : ConnectionParameters) :
    List ConnOp → ConnectionParameters × List DataPacket
  | [] => (cp, [])
  | op :: rest =>
    let r := match op with
      | .submit pkt => sendPacketConn cp pkt
      | .credits n => addCreditsConn cp n
    let r2 := runConnOps r.1 rest
    (r2.1, r.2 ++ r2.2)

/-- `NciApi::nfc_init` (api.rs 152-166) opens the static RF connection with
conn_id 0, the stored `rf_callback` (still `None` when no static RF callback
was installed beforehand), max payload size 0 and 0 credits. -/
def nfcInitStaticRfConn (rf_callback : Option Unit) : ConnectionParameters :=
  { callback := rf_callback
    max_payload_size := 0
    nfcc_credits_avail := 0
    sendq := []
    recvq := [] }

/-! ## The registry level

`LogicalConnectionsRegistry` holds `HashMap<u8, Mutex<ConnectionParameters>>`;
we model it as an association list keyed by Conn ID. -/

/-- The outer connection map of `LogicalConnectionsRegistry` (nci.rs 150-153). -/
def Registry := List (Nat × ConnectionParameters)

/-- Replace the parameters stored under `cid` (the in-place mutation through
the entry's mutex). -/
def updateConn (reg : Registry) (cid : Nat) (cp : ConnectionParameters) : Registry :=
  List.map (fun e => if e.1 = cid then (cid, cp) else e) reg

/-- Registry-level `add_credits` (nci.rs 196-205): a missing connection is a
silent no-op (`if let Some(..)`). -/
def addCredits (reg : Registry) (cid ncreds : Nat) : Registry × List DataPacket :=
  match List.lookup cid reg with
  | none => (reg, [])
  | some cp =>
    let r := addCreditsConn cp ncreds
    (updateConn reg cid r.1, r.2)

/-- Registry-level `send_callback` (nci.rs 246-281): CR credits are returned
through `add_credits` first (which performs its own lookup), then the packet is
processed against the connection looked up by its Conn ID; a missing
connection drops the packet silently. -/
def sendCallback (reg : Registry) (pkt : DataPacket) :
    Except Unit (Registry × List DataPacket × List CallbackEvent) :=
  match List.lookup pkt.conn_id reg with
  | none => .ok (reg, [], [])
  | some cp => do
    let r ← sendCallbackConn cp pkt
    .ok (updateConn reg pkt.conn_id r.1, r.2.1, r.2.2)

/-! ## The command dispatcher (nci.rs 316-397)

The `dispatch` task's looping `select!` is modelled as a step function over
its state: the single pending-command slot, whether the 20 ms command timer is
armed (`reset(max_deadline)` disarms it), the notification handler registry,
and the shared logical-connections registry. Channel effects become outputs. -/

/-- An NCI control opcode: the (GID, OID) pair (spec section 3). -/
abbrev Opcode := Nat × Nat

/-- A command as the dispatcher sees it: only its opcode matters for
pairing (the payload travels opaquely to the transport). -/
structure Command where
  op : Opcode
deriving DecidableEq, Repr

/-- A queued command from the API: the command of the pending slot plus
whether a one-shot notification sink is attached (`send_and_notify`). -/
structure QueuedCommand where
  cmd : Command
  notification : Bool
deriving DecidableEq, Repr

/-- An inbound notification: either a ConnCreditsNotification carrying a list
of (conn_id, ncredits) pairs, or any other notification identified by its
opcode. -/
inductive Notification
  | connCredits (conns : List (Nat × Nat))
  | other (code : Opcode)
deriving Repr

/-- A packet arriving on the dispatcher's control channel `hc.in_cmd_rx`:
a response (carrying the echoed command opcode), a notification, or an
unexpected other packet (the `_ =>` arm, logged and ignored). -/
inductive HalControlMessage
  | response (op : Opcode)
  | notification (n : Notification)
  | unexpected
deriving Repr

/-- One input event of the `select!` loop. -/
inductive DispatchEvent
  | halControl (m : HalControlMessage)
  | queued (qc : QueuedCommand)
  | timerFire
  | halData (pkt : DataPacket)
deriving Repr

/-- The dispatcher's state between `select!` iterations. -/
structure DispatchState where
  pending : Option Command
  timerArmed : Bool
  handlers : List Opcode
  lcons : Registry

/-- Observable effects of one dispatcher step. `pendingDropped` records that
the PendingCommand (with its one-shot response sender) was discarded, which
the waiting caller observes as a closed channel. -/
inductive DispatchOutput
  | respDelivered (cmdOp rspOp : Opcode)
  | notifDelivered (code : Opcode)
  | cmdSent (op : Opcode)
  | dataSent (pkt : DataPacket)
  | cbEvent (e : CallbackEvent)
  | pendingDropped (op : Opcode)
deriving DecidableEq, Repr

/-- Iterate `lcons.add_credits(conn.conn_id, conn.ncredits)` over the pairs of
a ConnCreditsNotification (nci.rs 348-352). -/
def applyConnCredits (reg : Registry) :
    List (Nat × Nat) → Registry × List DataPacket
  | [] => (reg, [])
  | c :: rest =>
    let r := addCredits reg c.1 c.2
    let r2 := applyConnCredits r.1 rest
    (r2.1, r.2 ++ r2.2)

/-- One iteration of the dispatcher `select!` loop (nci.rs 329-393).
`.error ()` models the source's `panic!` and `assert!` calls. The `queued`
event is guarded by `pending.is_none()` in the source `select!`; when the slot
is full the channel is simply not polled, modelled as an unchanged state with
no outputs. A timer event can only fire while the timer is armed. -/
def dispatchStep (s : DispatchState) (ev : DispatchEvent) :
    Except Unit (DispatchState × List DispatchOutput) :=
  match ev with
  | .halControl (.response rspOp) =>
    -- timeout.reset(max_deadline) comes first, then the pending slot is taken
    match s.pending with
    | some cmd =>
      if cmd.op = rspOp then
        .ok ({ s with pending := none, timerArmed := false },
             [.respDelivered cmd.op rspOp])
      else
        .error () -- panic: waiting for another opcode
    | none => .error () -- panic: unexpected status event
  | .halControl (.notification (.connCredits conns)) =>
    let r := applyConnCredits s.lcons conns
    .ok ({ s with lcons := r.1 }, r.2.map DispatchOutput.dataSent)
  | .halControl (.notification (.other code)) =>
    -- EventRegistry::unregister, then deliver; an unregistered code panics
    if code ∈ s.handlers then
      .ok ({ s with handlers := s.handlers.erase code }, [.notifDelivered code])
    else
      .error () -- panic: unhandled notification
  | .halControl .unexpected => .ok (s, [])
  | .queued qc =>
    match s.pending with
    | some _ => .ok (s, []) -- guard pending.is_none(): the queue is not polled
    | none =>
      if qc.notification ∧ qc.cmd.op ∈ s.handlers then
        .error () -- EventRegistry::register asserts no duplicate handler
      else
        .ok ({ s with
                 pending := some qc.cmd
                 timerArmed := true
                 handlers := if qc.notification then qc.cmd.op :: s.handlers
                             else s.handlers },
             [.cmdSent qc.cmd.op])
  | .timerFire =>
    if s.timerArmed then
      .ok ({ s with
               pending := none
               timerArmed := false },
           match s.pending with
           | some cmd => [.pendingDropped cmd.op]
           | none => [])
    else
      .ok (s, [])
  | .halData pkt => do
    let r ← sendCallback s.lcons pkt
    .ok ({ s with lcons := r.1 },
         r.2.1.map DispatchOutput.dataSent ++ r.2.2.map DispatchOutput.cbEvent)

/-! ## The host API (api.rs) -/

/-- NCI status codes used by the host API and the emulator (spec section 6:
8-bit NCI status codes, Ok = 0). -/
inductive Status
  | Ok
  | Rejected
  | Failed
  | NotInitialized
  | InvalidParam
deriving DecidableEq, Repr

/-- `nfc_packets::nci::DestTypes`, the destination type of a ConnCreate
command as decoded by the external codec. -/
inductive DestTypes
  | NfccLpbk
  | Remote
  | Nfcee
deriving DecidableEq, Repr

/-- Modelled from the spec: `DestTypes::try_from(u8)` of the external
code-generated `nfc_packets` crate (out of scope per spec section 1). The
variants are the three the source matches on (api.rs 299-310), at their NCI
encodings 0x01 NFCC loopback, 0x02 remote NFC endpoint, 0x03 NFCEE; every
other byte fails to decode. -/
def DestTypes.tryFrom : Nat → Option DestTypes
  | 1 => some .NfccLpbk
  | 2 => some .Remote
  | 3 => some .Nfcee
  | _ => none

/-- Destination-specific parameter types of a ConnCreate command
(`nfc_packets::nci::DestParamTypes`). -/
inductive DestParamTypes
  | RfDisc
  | NfceeT
deriving DecidableEq, Repr

/-- A destination-specific parameter of a ConnCreate command. -/
structure DestParam where
  ptype : DestParamTypes
  parameter : List Nat
deriving DecidableEq, Repr

/-- How the opening of `NciApi::nfc_conn_create` (api.rs 296-310) resolves
before any channel is touched: `DestTypes::try_from(dest_type).unwrap()`
panics when the byte does not decode; the wildcard match arm returns
`Status::InvalidParam as u8` early; otherwise the call proceeds to send a
ConnCreateCommand with the built destination parameters. -/
inductive ConnCreateEntry
  | panics
  | returns (status : Status)
  | proceeds (dt : DestTypes) (destparams : List DestParam)
deriving DecidableEq, Repr

/-- The entry logic of `NciApi::nfc_conn_create` (api.rs 296-310). The match
on the decoded `DestTypes` covers all three variants, so the `_` arm returning
`Status::InvalidParam` is unreachable: it exists for non-exhaustive enum
evolution only. -/
def nfcConnCreateEntry (dest_type id protocol : Nat) : ConnCreateEntry :=
  match DestTypes.tryFrom dest_type with
  | none => .panics
  | some dt =>
    match dt with
    | .NfccLpbk => .proceeds dt []
    | .Remote => .proceeds dt [⟨.RfDisc, [id, protocol]⟩]
    | .Nfcee => .proceeds dt [⟨.NfceeT, [id, protocol]⟩]

end NfcNci

namespace Casimir

/-! ## The Casimir NFCC emulator controller (src/tools/casimir/src/controller.rs) -/

open NfcNci (Status DataPacket)

/-- `MAX_LOGICAL_CONNECTIONS` (controller.rs 30). -/
def MAX_LOGICAL_CONNECTIONS : Nat := 2

/-- `MAX_DATA_PACKET_PAYLOAD_SIZE` (controller.rs 33). -/
def MAX_DATA_PACKET_PAYLOAD_SIZE : Nat := 255

/-- RF protocol types (`nci::RfProtocolType`), the eight variants enumerated
by the conversion glue in src/tools/casimir/src/packets.rs 35-62. -/
inductive RfProtocolType
  | Undetermined
  | T1t
  | T2t
  | T3t
  | IsoDep
  | NfcDep
  | T5t
  | Ndef
deriving DecidableEq, Repr

/-- Modelled from the spec: `RfProtocolType::try_from(u8)` of the external
code-generated codec, at the NCI encodings 0x00-0x07 in the order listed by
the conversion glue in packets.rs; other bytes fail to decode. -/
def RfProtocolType.tryFrom : Nat → Option RfProtocolType
  | 0 => some .Undetermined
  | 1 => some .T1t
  | 2 => some .T2t
  | 3 => some .T3t
  | 4 => some .IsoDep
  | 5 => some .NfcDep
  | 6 => some .T5t
  | 7 => some .Ndef
  | _ => none

/-- `LogicalConnection` (controller.rs 37-40). -/
inductive LogicalConnection
  | RemoteNfcEndpoint (rf_discovery_id : Nat) (rf_protocol_type : RfProtocolType)
deriving DecidableEq, Repr

/-- `nci::ConfigParameterId` as the controller distinguishes it
(controller.rs 153-158): either a parameter in the reserved-for-future-use
range (`Rfu(_)`) or any other defined parameter identifier. -/
inductive ConfigParameterId
  | known (id : Nat)
  | Rfu (id : Nat)
deriving DecidableEq, Repr

/-- A configuration parameter (id, value) pair. -/
structure ConfigParameter where
  id : ConfigParameterId
  value : List Nat
deriving DecidableEq, Repr

/-- The destination type of a CoreConnCreate command
(`nci::DestinationType`, controller.rs 233-262). -/
inductive DestinationType
  | RemoteNfcEndpoint
  | NfccLoopback
  | Nfcee
deriving DecidableEq, Repr

/-- Destination-specific parameter identifiers
(`nci::DestinationSpecificParameterId`): `RfDiscovery` or any other. -/
inductive DestinationSpecificParameterId
  | RfDiscovery
  | other (n : Nat)
deriving DecidableEq, Repr

/-- A destination-specific parameter of a CoreConnCreate command. -/
structure DestinationParameter where
  id : DestinationSpecificParameterId
  value : List Nat
deriving DecidableEq, Repr

/-- A CoreConnCreate command body. -/
structure CoreConnCreateCommand where
  destination_type : DestinationType
  parameters : List DestinationParameter
deriving DecidableEq, Repr

/-- A CoreConnCreate response body (controller.rs 278-292). -/
structure CoreConnCreateResponse where
  status : Status
  max_data_packet_payload_size : Nat
  initial_number_of_credits : Nat
  conn_id : Nat
deriving DecidableEq, Repr

/-- The mutable state of a `Controller` (controller.rs 43-53) touched by the
command handlers: the configuration map and the fixed
`[Option<LogicalConnection>; MAX_LOGICAL_CONNECTIONS]` array (size 2, held as
its two slots). -/
structure ControllerState where
  config_parameters : List (ConfigParameterId × List Nat)
  lc0 : Option LogicalConnection
  lc1 : Option LogicalConnection
deriving DecidableEq, Repr

/-- `Controller::new` (controller.rs 56-73): empty configuration, no open
logical connections. -/
def ControllerState.initial : ControllerState :=
  { config_parameters := [], lc0 := none, lc1 := none }

/-- Read `logical_connections[i]`. -/
def ControllerState.slot (s : ControllerState) (i : Nat) : Option LogicalConnection :=
  if i = 0 then s.lc0 else if i = 1 then s.lc1 else none

/-- Write `logical_connections[i]`. -/
def ControllerState.setSlot (s : ControllerState) (i : Nat)
    (v : Option LogicalConnection) : ControllerState :=
  if i = 0 then { s with lc0 := v } else if i = 1 then { s with lc1 := v } else s

/-- `(0..MAX_LOGICAL_CONNECTIONS).find(|id| logical_connections[id].is_none())`
(controller.rs 227-229): the lowest free Conn ID. -/
def freeConnId (s : ControllerState) : Option Nat :=
  if s.lc0 = none then some 0 else if s.lc1 = none then some 1 else none

/-- `HashMap::insert` on the configuration map, modelled on the association
list: replace the value under an existing key, append a new key at the end. -/
def insertConfig (m : List (ConfigParameterId × List Nat)) (id : ConfigParameterId)
    (v : List Nat) : List (ConfigParameterId × List Nat) :=
  match m with
  | [] => [(id, v)]
  | (k, w) :: rest =>
    if k = id then (id, v) :: rest else (k, w) :: insertConfig rest id v

/-- The loop body of `core_set_config` (controller.rs 152-159): a `Rfu(_)`
identifier is appended to the invalid list, any other identifier has its value
inserted into the configuration map. -/
def setConfigStep (acc : ControllerState × List ConfigParameterId)
    (p : ConfigParameter) : ControllerState × List ConfigParameterId :=
  match p.id with
  | .Rfu _ => (acc.1, acc.2 ++ [p.id])
  | .known _ =>
    ({ acc.1 with
         config_parameters := insertConfig acc.1.config_parameters p.id p.value },
     acc.2)

/-- `Controller::core_set_config` (controller.rs 148-183): per parameter,
a `Rfu(_)` identifier is accumulated in the invalid list, any other identifier
has its value written through to the configuration map; the response status is
Ok when the invalid list is empty and InvalidParam otherwise, with the invalid
identifiers as the response parameters. -/
def core_set_config (s : ControllerState) (params : List ConfigParameter) :
    ControllerState × Status × List ConfigParameterId :=
  let r := params.foldl setConfigStep (s, [])
  (r.1, (if r.2 = [] then Status.Ok else Status.InvalidParam), r.2)

/-- The loop body of `core_get_config` (controller.rs 190-197): a requested
identifier present in the map appends (id, stored value) to the valid list, a
missing one appends (id, empty value) to the invalid list. -/
def getConfigStep (s : ControllerState)
    (acc : List ConfigParameter × List ConfigParameter) (id : ConfigParameterId) :
    List ConfigParameter × List ConfigParameter :=
  match List.lookup id s.config_parameters with
  | some v => (acc.1 ++ [⟨id, v⟩], acc.2)
  | none => (acc.1, acc.2 ++ [⟨id, []⟩])

/-- `Controller::core_get_config` (controller.rs 185-220): per requested
identifier, a present one contributes (id, stored value) to the valid list and
a missing one contributes (id, empty) to the invalid list; the response is
(Ok, valid list) when the invalid list is empty and (InvalidParam, invalid
list) otherwise. -/
def core_get_config (s : ControllerState) (ids : List ConfigParameterId) :
    Status × List ConfigParameter :=
  let r := ids.foldl (getConfigStep s) ([], [])
  if r.2 = [] then (Status.Ok, r.1) else (Status.InvalidParam, r.2)

/-- Whether a configuration parameter identifier lies in the
reserved-for-future-use range. -/
def ConfigParameterId.isRfu : ConfigParameterId → Bool
  | .Rfu _ => true
  | .known _ => false

/-- The identifiers of the RFU parameters of a SetConfig command, in order. -/
def rfuIds (ps : List ConfigParameter) : List ConfigParameterId :=
  (ps.filter fun p => p.id.isRfu).map ConfigParameter.id

/-- The (id, stored value) pairs for the requested identifiers present in the
configuration map, in request order. -/
def foundParams (s : ControllerState) (ids : List ConfigParameterId) :
    List ConfigParameter :=
  ids.filterMap fun id => (List.lookup id s.config_parameters).map fun v => ⟨id, v⟩

/-- One (id, zero-length value) pair for each requested identifier missing
from the configuration map, in request order. -/
def missingParams (s : ControllerState) (ids : List ConfigParameterId) :
    List ConfigParameter :=
  (ids.filter fun id => (List.lookup id s.config_parameters).isNone).map
    fun id => ⟨id, []⟩

/-- At most one open logical connection per (destination type, destination
parameters) tuple: with the two slots of the emulator, the slots never hold
the same open connection. -/
def uniqOpen (s : ControllerState) : Prop :=
  s.lc0 = none ∨ s.lc0 ≠ s.lc1

/-- The parameter scan of `core_conn_create` (controller.rs 242-253): walk the
destination-specific parameters; an `RfDiscovery` parameter (re)binds
`rf_discovery_id` to the first value byte and `rf_protocol_type` to the decode
of the second; any other parameter aborts with `Status::Rejected`. -/
def scanDestParams :
    List DestinationParameter → Option Nat × Option RfProtocolType →
    Except Status (Option Nat × Option RfProtocolType)
  | [], acc => .ok acc
  | p :: rest, _ =>
    match p.id with
    | .RfDiscovery =>
      scanDestParams rest (p.value.head?, (p.value.get? 1).bind RfProtocolType.tryFrom)
    | .other _ => .error Status.Rejected

/-- `Controller::core_conn_create` (controller.rs 222-295): pick the lowest
free Conn ID (none free rejects); only destination type RemoteNfcEndpoint with
a valid RfDiscovery parameter is accepted (NfccLoopback and Nfcee reject, as
does a missing rf_discovery_id or rf_protocol_type); a duplicate
(destination type, destination parameters) connection rejects; on success the
connection is recorded in the chosen slot and the response carries status Ok,
the Conn ID, max payload size 255 and 255 initial credits. Every rejection
leaves the state unchanged and responds with the failing status,
max payload size 0, 255 initial credits and Conn ID 0. This function is the
inner closure (controller.rs 225-276) computing `Result<u8, nci::Status>`
together with the state it would commit. -/
def connCreateResult (s : ControllerState) (cmd : CoreConnCreateCommand) :
    Except Status (Nat × ControllerState) :=
  match freeConnId s with
  | none => .error Status.Rejected
  | some conn_id =>
    match cmd.destination_type with
    | .NfccLoopback => .error Status.Rejected
    | .Nfcee => .error Status.Rejected
    | .RemoteNfcEndpoint =>
      match scanDestParams cmd.parameters (none, none) with
      | .error st => .error st
      | .ok (none, _) => .error Status.Rejected
      | .ok (some _, none) => .error Status.Rejected
      | .ok (some rid, some rpt) =>
        let lc := LogicalConnection.RemoteNfcEndpoint rid rpt
        if s.lc0 = some lc ∨ s.lc1 = some lc then .error Status.Rejected
        else .ok (conn_id, s.setSlot conn_id (some lc))

/-- `Controller::core_conn_create` (controller.rs 222-295): on an Ok inner
result, commit the new state and respond Ok with the Conn ID, max payload
size `MAX_DATA_PACKET_PAYLOAD_SIZE` and 0xff initial credits; on an error,
keep the state and respond with the failing status. -/
def core_conn_create (s : ControllerState) (cmd : CoreConnCreateCommand) :
    ControllerState × CoreConnCreateResponse :=
  match connCreateResult s cmd with
  | .ok r =>
    (r.2, { status := Status.Ok
            max_data_packet_payload_size := MAX_DATA_PACKET_PAYLOAD_SIZE
            initial_number_of_credits := 0xff
            conn_id := r.1 })
  | .error st =>
    (s, { status := st
          max_data_packet_payload_size := 0
          initial_number_of_credits := 0xff
          conn_id := 0 })

/-- `Controller::receive_data` (controller.rs 436-438) is `todo!()`: receiving
a data packet over NCI panics the controller task (modelled as `.error ()`);
no state is produced. -/
def receive_data (_s : ControllerState) (_pkt : DataPacket) :
    Except Unit ControllerState :=
  .error ()

/-- `Controller::receive_rf` (controller.rs 440-442) is `todo!()`: receiving
an RF packet from the scene mailbox panics the controller task. -/
def receive_rf (_s : ControllerState) (_pkt : List Nat) :
    Except Unit ControllerState :=
  .error ()

/-- One multiplexed input of `Controller::run` (controller.rs 465-482): an NCI
data packet, an NCI command (only those whose handlers the embedding covers),
an RF packet from the scene, or the 5 ms tick. -/
inductive ControllerEvent
  | nciData (pkt : DataPacket)
  | nciConnCreate (cmd : CoreConnCreateCommand)
  | nciSetConfig (params : List ConfigParameter)
  | nciGetConfig (ids : List ConfigParameterId)
  | rf (pkt : List Nat)
  | tick
deriving Repr

/-- One iteration of the `Controller::run` select loop (controller.rs 465-482)
over the modelled events: a data packet goes to `receive_data`, an RF packet
to `receive_rf` (both panic via `todo!()`), commands to their handlers, the
tick to the empty `tick` handler. -/
def runStep (s : ControllerState) (ev : ControllerEvent) :
    Except Unit ControllerState :=
  match ev with
  | .nciData pkt => receive_data s pkt
  | .nciConnCreate cmd => .ok (core_conn_create s cmd).1
  | .nciSetConfig params => .ok (core_set_config s params).1
  | .nciGetConfig _ => .ok s
  | .rf pkt => receive_rf s pkt
  | .tick => .ok s

end Casimir

/-! # Theorems settling the claims -/

open NfcNci Casimir

/-- Claim C9: `nfc_conn_create` panics for every dest_type byte that is not a
valid `DestTypes` encoding (the failed `try_from` is unwrapped) instead of
returning an 8-bit NCI status code; the early `InvalidParam` return can only
arise from a byte decoding to a variant outside NfccLpbk/Remote/Nfcee (and
since the enum has exactly those three variants, it never arises). -/
theorem nfc_conn_create_entry_panics :
    (∀ b id protocol, DestTypes.tryFrom b = none →
        nfcConnCreateEntry b id protocol = ConnCreateEntry.panics) ∧
    nfcConnCreateEntry 0 0 0 = ConnCreateEntry.panics ∧
    (∀ b id protocol st, nfcConnCreateEntry b id protocol = ConnCreateEntry.returns st →
        ∃ dt, DestTypes.tryFrom b = some dt ∧
          dt ≠ DestTypes.NfccLpbk ∧ dt ≠ DestTypes.Remote ∧ dt ≠ DestTypes.Nfcee) := by
  refine ⟨fun b id protocol h => by simp [nfcConnCreateEntry, h], rfl, ?_⟩
  intro b id protocol st h
  unfold nfcConnCreateEntry at h
  cases htf : DestTypes.tryFrom b with
  | none => rw [htf] at h; exact absurd h (by simp)
  | some dt => rw [htf] at h; cases dt <;> simp at h

/-- Witness for C9: dest_type byte 0x07 does not decode, so the entry of
`nfc_conn_create` panics there. -/
theorem nfc_conn_create_entry_panics_witness :
    nfcConnCreateEntry 7 1 4 = ConnCreateEntry.panics :=
  nfc_conn_create_entry_panics.1 7 1 4 rfl

/-- Claim C10: the receive path panics when the connection has no callback
installed: on the static RF connection opened by `nfc_init` with no static
callback set beforehand, every arriving data packet (first segment of a
multi-segment message or a CompleteOrFinal segment alike) hits
`callback.unwrap()` on `None`. -/
theorem receive_panics_without_callback (pkt : DataPacket) :
    sendCallbackConn (nfcInitStaticRfConn none) pkt = Except.error () := by
  cases hpbf : pkt.pbf <;> by_cases hcr : 0 < pkt.cr <;>
    simp [sendCallbackConn, nfcInitStaticRfConn, addCreditsConn, drainQueue, hpbf, hcr]

/-- Claim C5 counterexample: receiving an NCI data packet does not leave the
emulator controller running with unchanged state; `receive_data` is `todo!()`
and the controller task panics (`.error ()`), which is not the `.ok` outcome
the claim describes. -/
theorem casimir_receive_data_panics_example :
    runStep ControllerState.initial
        (ControllerEvent.nciData ⟨0, PacketBoundaryFlag.CompleteOrFinal, 0, [1, 2, 3]⟩)
      = Except.error () ∧
    (Except.error () : Except Unit ControllerState) ≠ Except.ok ControllerState.initial :=
  ⟨rfl, by simp⟩

/-- Claim C5 as amended: when the emulator controller receives an NCI data
packet or an RF packet from the scene mailbox, the packet is not processed:
the handler is unimplemented (`todo!()`) and the controller task fails with a
panic; no modified state is ever produced. -/
theorem casimir_receive_data_rf_panic (s : ControllerState) (pkt : DataPacket)
    (rfp : List Nat) :
    runStep s (ControllerEvent.nciData pkt) = Except.error () ∧
    runStep s (ControllerEvent.rf rfp) = Except.error () :=
  ⟨rfl, rfl⟩

/-- Claim C2: the dispatcher admits a new QueuedCommand only when the pending
slot (an `Option`, hence at most one command) is `None` — with a command
pending the command channel is not polled and the step is a no-op; a delivered
Response always carries the pending command's opcode and clears the slot; a
response with a different opcode, or arriving with no pending command, is a
panic. -/
theorem dispatcher_single_in_flight :
    (∀ (s : DispatchState) (qc : QueuedCommand) (c : Command),
        s.pending = some c →
        dispatchStep s (DispatchEvent.queued qc) = Except.ok (s, [])) ∧
    (∀ (s : DispatchState) (rspOp : Opcode) (s2 : DispatchState)
        (outs : List DispatchOutput),
        dispatchStep s (DispatchEvent.halControl (HalControlMessage.response rspOp))
          = Except.ok (s2, outs) →
        ∃ c, s.pending = some c ∧ c.op = rspOp ∧ s2.pending = none ∧
          outs = [DispatchOutput.respDelivered c.op rspOp]) ∧
    (∀ (s : DispatchState) (rspOp : Opcode) (c : Command),
        s.pending = some c → c.op ≠ rspOp →
        dispatchStep s (DispatchEvent.halControl (HalControlMessage.response rspOp))
          = Except.error ()) ∧
    (∀ (s : DispatchState) (rspOp : Opcode),
        s.pending = none →
        dispatchStep s (DispatchEvent.halControl (HalControlMessage.response rspOp))
          = Except.error ()) := by
  refine ⟨fun s qc c h => by simp [dispatchStep, h], ?_,
          fun s rspOp c h hne => by simp [dispatchStep, h, hne], ?_⟩
  · intro s rspOp s2 outs h
    cases hp : s.pending with
    | none => simp [dispatchStep, hp] at h
    | some c =>
      by_cases hop : c.op = rspOp
      · simp [dispatchStep, hp, hop] at h
        exact ⟨c, rfl, hop, by simp [← h.1], by simp [h.2, hop]⟩
      · simp [dispatchStep, hp, hop] at h
  · intro s rspOp h
    simp [dispatchStep, h]

/-- Witness for C2: with a command pending, a queued command is not accepted
(the state is unchanged and nothing is sent). -/
theorem dispatcher_single_in_flight_witness :
    dispatchStep ⟨some ⟨(0, 0)⟩, true, [], []⟩
        (DispatchEvent.queued ⟨⟨(0, 1)⟩, false⟩)
      = Except.ok (⟨some ⟨(0, 0)⟩, true, [], []⟩, []) :=
  dispatcher_single_in_flight.1 ⟨some ⟨(0, 0)⟩, true, [], []⟩ ⟨⟨(0, 1)⟩, false⟩ ⟨(0, 0)⟩ rfl

/-- Claim C7: on the 20 ms timer expiry with a command pending, the dispatcher
drops the pending command (the discarded response sink is what the caller
observes as a closed channel), disarms the timer and clears the slot; nothing
is re-sent to the transport (no retry), and a subsequently queued command is
admitted. -/
theorem dispatcher_timeout (s : DispatchState) (c : Command) (qc : QueuedCommand)
    (hp : s.pending = some c) (ht : s.timerArmed = true)
    (hreg : ¬(qc.notification = true ∧ qc.cmd.op ∈ s.handlers)) :
    dispatchStep s DispatchEvent.timerFire =
      Except.ok ({ s with pending := none, timerArmed := false },
                 [DispatchOutput.pendingDropped c.op]) ∧
    (∀ op, DispatchOutput.cmdSent op ∉ [DispatchOutput.pendingDropped c.op]) ∧
    dispatchStep { s with pending := none, timerArmed := false }
        (DispatchEvent.queued qc) =
      Except.ok
        ({ s with
             pending := some qc.cmd
             timerArmed := true
             handlers := if qc.notification then qc.cmd.op :: s.handlers else s.handlers },
         [DispatchOutput.cmdSent qc.cmd.op]) := by
  refine ⟨by simp [dispatchStep, hp, ht], by simp, ?_⟩
  simp [dispatchStep, hreg]

/-- Witness for C7: a concrete timeout drops the pending command and the next
queued command is admitted. -/
theorem dispatcher_timeout_witness :
    dispatchStep ⟨some ⟨(0, 0)⟩, true, [], []⟩ DispatchEvent.timerFire
      = Except.ok (⟨none, false, [], []⟩, [DispatchOutput.pendingDropped (0, 0)]) ∧
    dispatchStep ⟨none, false, [], []⟩ (DispatchEvent.queued ⟨⟨(0, 1)⟩, false⟩)
      = Except.ok (⟨some ⟨(0, 1)⟩, true, [], []⟩, [DispatchOutput.cmdSent (0, 1)]) := by
  have h := dispatcher_timeout ⟨some ⟨(0, 0)⟩, true, [], []⟩ ⟨(0, 0)⟩ ⟨⟨(0, 1)⟩, false⟩
    rfl rfl (by simp)
  exact ⟨h.1, h.2.2⟩

/-! ## Segmentation (claim C3) -/

theorem getLast?_cons_ne {α : Type} (a : α) (l : List α) (h : l ≠ []) :
    (a :: l).getLast? = l.getLast? := by
  cases l with
  | nil => exact absurd rfl h
  | cons b t => simp [List.getLast?]

theorem splitPayload_cons (c M : Nat) (p : List Nat) (h1 : 0 < M) (h2 : M < p.length) :
    splitPayload c M p
      = ⟨c, PacketBoundaryFlag.Incomplete, 0, p.take M⟩ :: splitPayload c M (p.drop M) := by
  conv_lhs => unfold splitPayload
  rw [dif_pos ⟨h1, h2⟩]

theorem splitPayload_single (c M : Nat) (p : List Nat) (h1 : p ≠ []) (h2 : p.length ≤ M) :
    splitPayload c M p = [⟨c, PacketBoundaryFlag.CompleteOrFinal, 0, p⟩] := by
  unfold splitPayload
  rw [dif_neg (by omega)]
  simp [h1]

theorem splitPayload_spec (c M : Nat) (hM : 0 < M) (p : List Nat) (hp : p ≠ []) :
    ((splitPayload c M p).map DataPacket.payload).flatten = p ∧
    (splitPayload c M p).length = (p.length + M - 1) / M ∧
    (∀ q ∈ splitPayload c M p, q.conn_id = c ∧ q.cr = 0) ∧
    (∀ q ∈ (splitPayload c M p).dropLast,
        q.pbf = PacketBoundaryFlag.Incomplete ∧ q.payload.length = M) ∧
    (∃ q, (splitPayload c M p).getLast? = some q ∧
        q.pbf = PacketBoundaryFlag.CompleteOrFinal ∧
        q.payload.length = if p.length % M = 0 then M else p.length % M) := by
  suffices H : ∀ (n : Nat) (p : List Nat), p.length ≤ n → p ≠ [] →
      ((splitPayload c M p).map DataPacket.payload).flatten = p ∧
      (splitPayload c M p).length = (p.length + M - 1) / M ∧
      (∀ q ∈ splitPayload c M p, q.conn_id = c ∧ q.cr = 0) ∧
      (∀ q ∈ (splitPayload c M p).dropLast,
          q.pbf = PacketBoundaryFlag.Incomplete ∧ q.payload.length = M) ∧
      (∃ q, (splitPayload c M p).getLast? = some q ∧
          q.pbf = PacketBoundaryFlag.CompleteOrFinal ∧
          q.payload.length = if p.length % M = 0 then M else p.length % M) by
    exact H p.length p le_rfl hp
  intro n
  induction n with
  | zero =>
    intro p hlen hne
    cases p with
    | nil => exact absurd rfl hne
    | cons a t => simp at hlen
  | succ n ih =>
    intro p hlen hne
    by_cases hcase : p.length ≤ M
    · have h1 : 1 ≤ p.length := List.length_pos.mpr hne
      rw [splitPayload_single c M p hne hcase]
      refine ⟨by simp, ?_,
        by simp, by simp,
        ⟨⟨c, PacketBoundaryFlag.CompleteOrFinal, 0, p⟩, by simp, rfl, ?_⟩⟩
      · simpa using (Nat.div_eq_of_lt_le (by omega) (by omega)).symm
      · rcases Nat.lt_or_ge p.length M with hlt | hge
        · rw [Nat.mod_eq_of_lt hlt, if_neg (by omega : ¬p.length = 0)]
        · have heq : p.length = M := le_antisymm hcase hge
          simp [heq, Nat.mod_self]
    · push_neg at hcase
      rw [splitPayload_cons c M p hM hcase]
      have hdlen : (p.drop M).length = p.length - M := List.length_drop M p
      have hdropne : p.drop M ≠ [] := by
        intro h
        rw [h] at hdlen
        simp at hdlen
        omega
      obtain ⟨hflat, hlen', hmem, hdl, q, hql, hqpbf, hqlen⟩ :=
        ih (p.drop M) (by omega) hdropne
      have hrecne : splitPayload c M (p.drop M) ≠ [] := by
        intro h
        rw [h] at hql
        simp at hql
      refine ⟨?_, ?_, ?_, ?_, ?_⟩
      · simp [hflat]
      · rw [List.length_cons, hlen', hdlen]
        have e1 : p.length - M + M - 1 = p.length - 1 := by omega
        have e2 : p.length + M - 1 = p.length - 1 + M := by omega
        rw [e1, e2, Nat.add_div_right _ hM]
      · intro q2 hq2
        rcases List.mem_cons.mp hq2 with rfl | hq2
        · exact ⟨rfl, rfl⟩
        · exact hmem q2 hq2
      · rw [List.dropLast_cons_of_ne_nil hrecne]
        intro q2 hq2
        rcases List.mem_cons.mp hq2 with rfl | hq2
        · exact ⟨rfl, by simp [List.length_take]; omega⟩
        · exact hdl q2 hq2
      · refine ⟨q, ?_, hqpbf, ?_⟩
        · rw [getLast?_cons_ne _ _ hrecne]
          exact hql
        · have e3 : (p.drop M).length % M = p.length % M := by
            rw [hdlen]
            conv_rhs => rw [show p.length = p.length - M + M by omega]
            rw [Nat.add_mod_right]
          rw [hqlen, e3]

theorem drainQueue_spec (q : List DataPacket) :
    ∀ c : Nat,
      (drainQueue c q).2.2 ++ (drainQueue c q).2.1 = q ∧
      (drainQueue c q).1 + (drainQueue c q).2.2.length = c := by
  induction q with
  | nil => intro c; simp [drainQueue]
  | cons pkt rest ih =>
    intro c
    cases c with
    | zero => simp [drainQueue]
    | succ m =>
      have h := ih m
      simp only [drainQueue, List.cons_append, List.length_cons]
      exact ⟨by rw [h.1], by omega⟩

/-- Claim C3: a data packet with payload P of length L submitted through
`send_packet` on a connection with max_payload_size M, 0 < M < L, is split
into exactly ceil(L/M) pieces; every piece before the last carries exactly M
bytes with PBF = Incomplete, the last carries L mod M bytes (or M bytes when
M divides L) with PBF = CompleteOrFinal, all pieces carry the packet's Conn ID
and CR = 0, the concatenation of the pieces' payloads is exactly P, and the
pieces — and nothing else — are appended behind the connection's send queue
(partly drained to the transport, in order). -/
theorem send_packet_splits (cp : ConnectionParameters) (pkt : DataPacket)
    (hM : 0 < cp.max_payload_size) (hL : cp.max_payload_size < pkt.payload.length) :
    (splitPayload pkt.conn_id cp.max_payload_size pkt.payload).length
      = (pkt.payload.length + cp.max_payload_size - 1) / cp.max_payload_size ∧
    ((splitPayload pkt.conn_id cp.max_payload_size pkt.payload).map
        DataPacket.payload).flatten = pkt.payload ∧
    (∀ q ∈ splitPayload pkt.conn_id cp.max_payload_size pkt.payload,
        q.conn_id = pkt.conn_id ∧ q.cr = 0) ∧
    (∀ q ∈ (splitPayload pkt.conn_id cp.max_payload_size pkt.payload).dropLast,
        q.pbf = PacketBoundaryFlag.Incomplete ∧
        q.payload.length = cp.max_payload_size) ∧
    (∃ q, (splitPayload pkt.conn_id cp.max_payload_size pkt.payload).getLast?
        = some q ∧
        q.pbf = PacketBoundaryFlag.CompleteOrFinal ∧
        q.payload.length =
          if pkt.payload.length % cp.max_payload_size = 0
          then cp.max_payload_size
          else pkt.payload.length % cp.max_payload_size) ∧
    (sendPacketConn cp pkt).2 ++ (sendPacketConn cp pkt).1.sendq
      = cp.sendq ++ splitPayload pkt.conn_id cp.max_payload_size pkt.payload := by
  have hne : pkt.payload ≠ [] := by
    intro h
    rw [h] at hL
    simp at hL
  obtain ⟨hflat, hlen, hmem, hdl, hlast⟩ :=
    splitPayload_spec pkt.conn_id cp.max_payload_size hM pkt.payload hne
  refine ⟨hlen, hflat, hmem, hdl, hlast, ?_⟩
  have hsp : pkt.specialize = some pkt.payload := by
    simp [DataPacket.specialize, hne]
  have hd := drainQueue_spec
    (cp.sendq ++ splitPayload pkt.conn_id cp.max_payload_size pkt.payload)
    cp.nfcc_credits_avail
  simp only [sendPacketConn, hsp, if_pos hL]
  exact hd.1

/-- Witness for C3 (spec scenario 4): payload of 7 bytes with
max_payload_size 3 yields ceil(7/3) = 3 pieces whose payloads concatenate
back to the original payload. -/
theorem send_packet_splits_witness :
    (splitPayload 1 3 [10, 11, 12, 13, 14, 15, 16]).length = (7 + 3 - 1) / 3 ∧
    ((splitPayload 1 3 [10, 11, 12, 13, 14, 15, 16]).map DataPacket.payload).flatten
      = [10, 11, 12, 13, 14, 15, 16] := by
  have h := send_packet_splits ⟨some (), 3, 0, [], []⟩
    ⟨1, PacketBoundaryFlag.CompleteOrFinal, 0, [10, 11, 12, 13, 14, 15, 16]⟩
    (by decide) (by decide)
  exact ⟨h.1, h.2.1⟩

/-! ## Credit conservation (claim C4) -/

theorem addCreditsConn_conserve (cp : ConnectionParameters) (n : Nat)
    (h : cp.nfcc_credits_avail + n < 256) :
    (addCreditsConn cp n).1.nfcc_credits_avail + (addCreditsConn cp n).2.length
      = cp.nfcc_credits_avail + n := by
  simp only [addCreditsConn]
  rw [Nat.mod_eq_of_lt h]
  exact (drainQueue_spec cp.sendq (cp.nfcc_credits_avail + n)).2

theorem sendPacketConn_conserve (cp : ConnectionParameters) (pkt : DataPacket) :
    (sendPacketConn cp pkt).1.nfcc_credits_avail + (sendPacketConn cp pkt).2.length
      = cp.nfcc_credits_avail := by
  cases hs : pkt.specialize with
  | none =>
    have hd := drainQueue_spec cp.sendq cp.nfcc_credits_avail
    simp only [sendPacketConn, hs]
    exact hd.2
  | some p =>
    by_cases hgt : cp.max_payload_size < p.length
    · have hd := drainQueue_spec
        (cp.sendq ++ splitPayload pkt.conn_id cp.max_payload_size p)
        cp.nfcc_credits_avail
      simp only [sendPacketConn, hs, if_pos hgt]
      exact hd.2
    · have hd := drainQueue_spec (cp.sendq ++ [pkt]) cp.nfcc_credits_avail
      simp only [sendPacketConn, hs, if_neg hgt]
      exact hd.2

/-- Claim C4: the credit counter is conserved: starting from c0 credits,
after any sequence of `send_packet` submissions and `add_credits` grants
totalling r (with the u8 counter never overflowing, c0 + r < 256), the
counter equals c0 + r − k where k is the number of packets handed to the
transport; in particular k ≤ c0 + r, each dispatched packet having cost
exactly one credit, and the `Nat`-valued counter is never negative. -/
theorem credit_conservation (cp : ConnectionParameters) (ops : List ConnOp)
    (hof : cp.nfcc_credits_avail + sumCredits ops < 256) :
    (runConnOps cp ops).1.nfcc_credits_avail + (runConnOps cp ops).2.length
      = cp.nfcc_credits_avail + sumCredits ops ∧
    (runConnOps cp ops).2.length ≤ cp.nfcc_credits_avail + sumCredits ops := by
  suffices H : (runConnOps cp ops).1.nfcc_credits_avail + (runConnOps cp ops).2.length
      = cp.nfcc_credits_avail + sumCredits ops from ⟨H, by omega⟩
  induction ops generalizing cp with
  | nil => simp [runConnOps, sumCredits]
  | cons op rest ih =>
    cases op with
    | submit pkt =>
      have h1 := sendPacketConn_conserve cp pkt
      have h2 := ih (sendPacketConn cp pkt).1
        (by simp only [sumCredits] at hof ⊢; omega)
      simp only [runConnOps, sumCredits, List.length_append] at *
      omega
    | credits n =>
      have h1 := addCreditsConn_conserve cp n
        (by simp only [sumCredits] at hof; omega)
      have h2 := ih (addCreditsConn cp n).1
        (by simp only [sumCredits] at hof ⊢; omega)
      simp only [runConnOps, sumCredits, List.length_append] at *
      omega

/-- Witness for C4 (spec scenario 5): one initial credit, three submissions
and a grant of two credits conserve c0 + r = 3: the final counter plus the
number of transported packets equals 3. -/
theorem credit_conservation_witness :
    (runConnOps ⟨some (), 255, 1, [], []⟩
        [ConnOp.submit ⟨0, PacketBoundaryFlag.CompleteOrFinal, 0, [1]⟩,
         ConnOp.submit ⟨0, PacketBoundaryFlag.CompleteOrFinal, 0, [2]⟩,
         ConnOp.submit ⟨0, PacketBoundaryFlag.CompleteOrFinal, 0, [3]⟩,
         ConnOp.credits 2]).1.nfcc_credits_avail
      + (runConnOps ⟨some (), 255, 1, [], []⟩
          [ConnOp.submit ⟨0, PacketBoundaryFlag.CompleteOrFinal, 0, [1]⟩,
           ConnOp.submit ⟨0, PacketBoundaryFlag.CompleteOrFinal, 0, [2]⟩,
           ConnOp.submit ⟨0, PacketBoundaryFlag.CompleteOrFinal, 0, [3]⟩,
           ConnOp.credits 2]).2.length
      = 1 + sumCredits
          [ConnOp.submit ⟨0, PacketBoundaryFlag.CompleteOrFinal, 0, [1]⟩,
           ConnOp.submit ⟨0, PacketBoundaryFlag.CompleteOrFinal, 0, [2]⟩,
           ConnOp.submit ⟨0, PacketBoundaryFlag.CompleteOrFinal, 0, [3]⟩,
           ConnOp.credits 2] :=
  (credit_conservation ⟨some (), 255, 1, [], []⟩ _ (by decide)).1

/-! ## Configuration set/get (claim C8) -/

theorem lookup_cons_self (k : ConfigParameterId) (b : List Nat)
    (es : List (ConfigParameterId × List Nat)) :
    List.lookup k ((k, b) :: es) = some b := by
  simp [List.lookup]

theorem lookup_cons_ne (a k : ConfigParameterId) (b : List Nat)
    (es : List (ConfigParameterId × List Nat)) (h : a ≠ k) :
    List.lookup a ((k, b) :: es) = List.lookup a es := by
  simp [List.lookup, beq_false_of_ne h]

theorem lookup_insertConfig_self (m : List (ConfigParameterId × List Nat))
    (id : ConfigParameterId) (v : List Nat) :
    List.lookup id (insertConfig m id v) = some v := by
  induction m with
  | nil => simp [insertConfig, List.lookup]
  | cons e rest ih =>
    obtain ⟨k, w⟩ := e
    by_cases hk : k = id
    · simp [insertConfig, hk, List.lookup]
    · have hne : id ≠ k := fun h => hk h.symm
      simp only [insertConfig, if_neg hk]
      rw [lookup_cons_ne _ _ _ _ hne]
      exact ih

theorem lookup_insertConfig_other (m : List (ConfigParameterId × List Nat))
    (id id2 : ConfigParameterId) (v : List Nat) (h : id2 ≠ id) :
    List.lookup id2 (insertConfig m id v) = List.lookup id2 m := by
  induction m with
  | nil => simp [insertConfig, List.lookup, beq_false_of_ne h]
  | cons e rest ih =>
    obtain ⟨k, w⟩ := e
    by_cases hk : k = id
    · subst hk
      rw [show insertConfig ((k, w) :: rest) k v = (k, v) :: rest from by
        simp [insertConfig]]
      rw [lookup_cons_ne _ _ _ _ h, lookup_cons_ne _ _ _ _ h]
    · simp only [insertConfig, if_neg hk]
      by_cases hk2 : id2 = k
      · subst hk2
        rw [lookup_cons_self, lookup_cons_self]
      · rw [lookup_cons_ne _ _ _ _ hk2, lookup_cons_ne _ _ _ _ hk2, ih]

theorem setConfig_foldl_invalid (ps : List ConfigParameter) :
    ∀ (s : ControllerState) (acc : List ConfigParameterId),
      (ps.foldl setConfigStep (s, acc)).2 = acc ++ rfuIds ps := by
  induction ps with
  | nil => intro s acc; simp [rfuIds]
  | cons p rest ih =>
    intro s acc
    cases hid : p.id with
    | known k =>
      simp only [List.foldl_cons, setConfigStep, hid, ih]
      simp [rfuIds, List.filter_cons, hid, ConfigParameterId.isRfu]
    | Rfu k =>
      simp only [List.foldl_cons, setConfigStep, hid, ih]
      simp [rfuIds, List.filter_cons, hid, ConfigParameterId.isRfu]

theorem setConfig_foldl_untouched (ps : List ConfigParameter) :
    ∀ (s : ControllerState) (acc : List ConfigParameterId) (id : ConfigParameterId),
      (∀ p ∈ ps, p.id ≠ id) →
      List.lookup id (ps.foldl setConfigStep (s, acc)).1.config_parameters
        = List.lookup id s.config_parameters := by
  induction ps with
  | nil => intro s acc id _; rfl
  | cons p rest ih =>
    intro s acc id hall
    have hp : p.id ≠ id := hall p (List.mem_cons_self p rest)
    cases hid : p.id with
    | known k =>
      simp only [List.foldl_cons, setConfigStep, hid]
      rw [ih _ _ _ fun q hq => hall q (List.mem_cons_of_mem p hq)]
      exact lookup_insertConfig_other _ _ _ _ (by rw [← hid]; exact fun h => hp h.symm)
    | Rfu k =>
      simp only [List.foldl_cons, setConfigStep, hid]
      exact ih _ _ _ fun q hq => hall q (List.mem_cons_of_mem p hq)

theorem setConfig_foldl_write (ps : List ConfigParameter)
    (hnd : (ps.map ConfigParameter.id).Nodup) :
    ∀ (s : ControllerState) (acc : List ConfigParameterId),
      ∀ p ∈ ps, p.id.isRfu = false →
        List.lookup p.id (ps.foldl setConfigStep (s, acc)).1.config_parameters
          = some p.value := by
  induction ps with
  | nil => intro s acc p hp; exact absurd hp (List.not_mem_nil p)
  | cons q rest ih =>
    intro s acc p hp hrfu
    rcases List.mem_cons.mp hp with rfl | hp
    · -- the parameter written by the head step is untouched by the tail
      have hnotin : ∀ p2 ∈ rest, p2.id ≠ p.id := by
        intro p2 hp2 heq
        have := (List.nodup_cons.mp hnd).1
        exact this (heq ▸ List.mem_map_of_mem ConfigParameter.id hp2)
      cases hid : p.id with
      | known k =>
        simp only [List.foldl_cons, setConfigStep, hid]
        rw [setConfig_foldl_untouched rest _ _ _ (fun p2 hp2 => hid ▸ hnotin p2 hp2)]
        exact lookup_insertConfig_self _ _ _
      | Rfu k =>
        rw [hid] at hrfu
        simp [ConfigParameterId.isRfu] at hrfu
    · cases hid : q.id with
      | known k =>
        simp only [List.foldl_cons, setConfigStep, hid]
        exact ih (List.nodup_cons.mp hnd).2 _ _ p hp hrfu
      | Rfu k =>
        simp only [List.foldl_cons, setConfigStep, hid]
        exact ih (List.nodup_cons.mp hnd).2 _ _ p hp hrfu

theorem getConfig_foldl (s : ControllerState) (ids : List ConfigParameterId) :
    ∀ (va ia : List ConfigParameter),
      ids.foldl (getConfigStep s) (va, ia)
        = (va ++ foundParams s ids, ia ++ missingParams s ids) := by
  induction ids with
  | nil => intro va ia; simp [foundParams, missingParams]
  | cons id rest ih =>
    intro va ia
    cases hl : List.lookup id s.config_parameters with
    | none =>
      simp only [List.foldl_cons, getConfigStep, hl, ih]
      simp [foundParams, missingParams, List.filterMap_cons, List.filter_cons, hl]
    | some v =>
      simp only [List.foldl_cons, getConfigStep, hl, ih]
      simp [foundParams, missingParams, List.filterMap_cons, List.filter_cons, hl]

/-- Claim C8: `core_set_config` rejects exactly the RFU-range identifiers
(collected in order in the response, status Ok iff none) while writing every
other parameter's value through to the configuration map; `core_get_config`
answers (Ok, one (id, stored value) pair per requested id) when all requested
identifiers are present, and (InvalidParam, exactly the missing identifiers
with zero-length values) otherwise. -/
theorem set_get_config_spec (s : ControllerState) (ps : List ConfigParameter)
    (ids : List ConfigParameterId) (hnd : (ps.map ConfigParameter.id).Nodup) :
    (core_set_config s ps).2.2 = rfuIds ps ∧
    (core_set_config s ps).2.1
      = (if rfuIds ps = [] then Status.Ok else Status.InvalidParam) ∧
    (∀ p ∈ ps, p.id.isRfu = false →
        List.lookup p.id (core_set_config s ps).1.config_parameters = some p.value) ∧
    (∀ p ∈ ps, p.id.isRfu = true → p.id ∈ rfuIds ps) ∧
    (∀ s2 : ControllerState,
        core_get_config s2 ids =
          (if missingParams s2 ids = [] then Status.Ok else Status.InvalidParam,
           if missingParams s2 ids = [] then foundParams s2 ids
           else missingParams s2 ids)) := by
  have hinv := setConfig_foldl_invalid ps s []
  refine ⟨?_, ?_, ?_, ?_, ?_⟩
  · simp only [core_set_config]
    simpa using hinv
  · simp only [core_set_config]
    rw [hinv]
    simp
  · intro p hp hrfu
    simp only [core_set_config]
    exact setConfig_foldl_write ps hnd s [] p hp hrfu
  · intro p hp hrfu
    exact List.mem_map_of_mem ConfigParameter.id
      (List.mem_filter.mpr ⟨hp, by simp [hrfu]⟩)
  · intro s2
    simp only [core_get_config, getConfig_foldl s2 ids [] []]
    by_cases hm : missingParams s2 ids = [] <;> simp [hm]

/-- Witness for C8 (spec scenario 2): setting parameter 0x00 to [0x11, 0x22]
responds Ok with an empty invalid list; getting [0x00, 0xFF] with 0xFF in the
RFU range and absent responds InvalidParam with exactly (0xFF, []). -/
theorem set_get_config_spec_witness :
    (core_set_config ControllerState.initial
        [⟨ConfigParameterId.known 0, [17, 34]⟩]).2.1 = Status.Ok ∧
    core_get_config (core_set_config ControllerState.initial
        [⟨ConfigParameterId.known 0, [17, 34]⟩]).1
        [ConfigParameterId.known 0, ConfigParameterId.Rfu 255]
      = (Status.InvalidParam, [⟨ConfigParameterId.Rfu 255, []⟩]) := by
  have h := set_get_config_spec ControllerState.initial
    [⟨ConfigParameterId.known 0, [17, 34]⟩]
    [ConfigParameterId.known 0, ConfigParameterId.Rfu 255] (by decide)
  refine ⟨?_, ?_⟩
  · rw [h.2.1]; decide
  · rw [h.2.2.2.2 (core_set_config ControllerState.initial
      [⟨ConfigParameterId.known 0, [17, 34]⟩]).1]
    decide

/-! ## CoreConnCreate (claim C6) -/

theorem freeConnId_cases (s : ControllerState) (i : Nat) (h : freeConnId s = some i) :
    (i = 0 ∧ s.lc0 = none) ∨ (i = 1 ∧ s.lc0 ≠ none ∧ s.lc1 = none) := by
  unfold freeConnId at h
  by_cases h0 : s.lc0 = none
  · rw [if_pos h0] at h
    exact Or.inl ⟨(Option.some.inj h).symm, h0⟩
  · rw [if_neg h0] at h
    by_cases h1 : s.lc1 = none
    · rw [if_pos h1] at h
      exact Or.inr ⟨(Option.some.inj h).symm, h0, h1⟩
    · rw [if_neg h1] at h
      exact absurd h (by simp)

theorem scanDestParams_error_of_other (ps : List DestinationParameter) :
    ∀ acc, (∃ p ∈ ps, p.id ≠ DestinationSpecificParameterId.RfDiscovery) →
      scanDestParams ps acc = Except.error Status.Rejected := by
  induction ps with
  | nil =>
    intro acc h
    obtain ⟨p, hp, _⟩ := h
    exact absurd hp (List.not_mem_nil p)
  | cons q rest ih =>
    intro acc h
    cases hid : q.id with
    | RfDiscovery =>
      simp only [scanDestParams, hid]
      apply ih
      obtain ⟨p, hp, hne⟩ := h
      rcases List.mem_cons.mp hp with rfl | hp2
      · exact absurd hid hne
      · exact ⟨p, hp2, hne⟩
    | other n =>
      simp [scanDestParams, hid]

theorem connCreateResult_ok_inv (s : ControllerState) (cmd : CoreConnCreateCommand)
    (i : Nat) (s2 : ControllerState)
    (h : connCreateResult s cmd = Except.ok (i, s2)) :
    ∃ rid rpt,
      freeConnId s = some i ∧
      cmd.destination_type = DestinationType.RemoteNfcEndpoint ∧
      scanDestParams cmd.parameters (none, none) = Except.ok (some rid, some rpt) ∧
      ¬(s.lc0 = some (LogicalConnection.RemoteNfcEndpoint rid rpt) ∨
        s.lc1 = some (LogicalConnection.RemoteNfcEndpoint rid rpt)) ∧
      s2 = s.setSlot i (some (LogicalConnection.RemoteNfcEndpoint rid rpt)) := by
  unfold connCreateResult at h
  cases hfree : freeConnId s <;> rw [hfree] at h
  · simp at h
  case some conn_id =>
    cases hdt : cmd.destination_type <;> rw [hdt] at h
    case NfccLoopback => simp at h
    case Nfcee => simp at h
    case RemoteNfcEndpoint =>
      cases hscan : scanDestParams cmd.parameters (none, none) <;> rw [hscan] at h
      case error st => simp at h
      case ok r =>
        obtain ⟨o1, o2⟩ := r
        cases o1 with
        | none => simp at h
        | some rid =>
          cases o2 with
          | none => simp at h
          | some rpt =>
            by_cases hdup : s.lc0 = some (LogicalConnection.RemoteNfcEndpoint rid rpt) ∨
                s.lc1 = some (LogicalConnection.RemoteNfcEndpoint rid rpt)
            · simp only [if_pos hdup] at h
              simp at h
            · simp only [if_neg hdup] at h
              have h12 := Except.ok.inj h
              have h1 : conn_id = i := congrArg Prod.fst h12
              have h2 := congrArg Prod.snd h12
              subst h1
              exact ⟨rid, rpt, rfl, rfl, rfl, hdup, h2.symm⟩

/-- Claim C6: `core_conn_create` rejects (status Rejected, state unchanged)
when the destination type is NfccLoopback or Nfcee, when any destination
parameter other than RfDiscovery is present, when the scanned RfDiscovery
data lacks a valid rf_discovery_id or rf_protocol_type, when an identical
connection is already open, or when no slot is free; otherwise it records the
connection in the lowest free slot i and responds Ok with conn_id i,
max_data_packet_payload_size 255 and initial_number_of_credits 255; the
per-(destination type, destination parameters) uniqueness of open connections
is preserved. -/
theorem core_conn_create_spec (s : ControllerState) (cmd : CoreConnCreateCommand) :
    ((cmd.destination_type = DestinationType.NfccLoopback ∨
      cmd.destination_type = DestinationType.Nfcee) →
      core_conn_create s cmd = (s, ⟨Status.Rejected, 0, 255, 0⟩)) ∧
    ((∃ p ∈ cmd.parameters, p.id ≠ DestinationSpecificParameterId.RfDiscovery) →
      core_conn_create s cmd = (s, ⟨Status.Rejected, 0, 255, 0⟩)) ∧
    (∀ r, cmd.destination_type = DestinationType.RemoteNfcEndpoint →
      scanDestParams cmd.parameters (none, none) = Except.ok r →
      (r.1 = none ∨ r.2 = none) →
      core_conn_create s cmd = (s, ⟨Status.Rejected, 0, 255, 0⟩)) ∧
    (∀ rid rpt, cmd.destination_type = DestinationType.RemoteNfcEndpoint →
      scanDestParams cmd.parameters (none, none) = Except.ok (some rid, some rpt) →
      (s.lc0 = some (LogicalConnection.RemoteNfcEndpoint rid rpt) ∨
       s.lc1 = some (LogicalConnection.RemoteNfcEndpoint rid rpt)) →
      core_conn_create s cmd = (s, ⟨Status.Rejected, 0, 255, 0⟩)) ∧
    (freeConnId s = none →
      core_conn_create s cmd = (s, ⟨Status.Rejected, 0, 255, 0⟩)) ∧
    (∀ i rid rpt, freeConnId s = some i →
      cmd.destination_type = DestinationType.RemoteNfcEndpoint →
      scanDestParams cmd.parameters (none, none) = Except.ok (some rid, some rpt) →
      ¬(s.lc0 = some (LogicalConnection.RemoteNfcEndpoint rid rpt) ∨
        s.lc1 = some (LogicalConnection.RemoteNfcEndpoint rid rpt)) →
      core_conn_create s cmd
        = (s.setSlot i (some (LogicalConnection.RemoteNfcEndpoint rid rpt)),
           ⟨Status.Ok, 255, 255, i⟩)) ∧
    (∀ i, freeConnId s = some i →
      i < MAX_LOGICAL_CONNECTIONS ∧ s.slot i = none ∧ ∀ j < i, s.slot j ≠ none) ∧
    (uniqOpen s → uniqOpen (core_conn_create s cmd).1) := by
  refine ⟨?_, ?_, ?_, ?_, ?_, ?_, ?_, ?_⟩
  · intro hdest
    cases hfree : freeConnId s
    · simp [core_conn_create, connCreateResult, hfree]
    · rcases hdest with h | h <;>
        simp [core_conn_create, connCreateResult, hfree, h]
  · intro hex
    cases hfree : freeConnId s
    · simp [core_conn_create, connCreateResult, hfree]
    · cases hdt : cmd.destination_type
      · have hscan := scanDestParams_error_of_other cmd.parameters (none, none) hex
        simp [core_conn_create, connCreateResult, hfree, hdt, hscan]
      · simp [core_conn_create, connCreateResult, hfree, hdt]
      · simp [core_conn_create, connCreateResult, hfree, hdt]
  · intro r hdt hscan hmiss
    cases hfree : freeConnId s
    · simp [core_conn_create, connCreateResult, hfree]
    · obtain ⟨o1, o2⟩ := r
      rcases hmiss with h | h
      · simp only at h
        subst h
        simp [core_conn_create, connCreateResult, hfree, hdt, hscan]
      · simp only at h
        subst h
        cases o1 <;> simp [core_conn_create, connCreateResult, hfree, hdt, hscan]
  · intro rid rpt hdt hscan hdup
    cases hfree : freeConnId s
    · simp [core_conn_create, connCreateResult, hfree]
    · simp [core_conn_create, connCreateResult, hfree, hdt, hscan, if_pos hdup]
  · intro hfree
    simp [core_conn_create, connCreateResult, hfree]
  · intro i rid rpt hfree hdt hscan hdup
    simp [core_conn_create, connCreateResult, hfree, hdt, hscan, if_neg hdup,
      MAX_DATA_PACKET_PAYLOAD_SIZE]
  · intro i hfree
    rcases freeConnId_cases s i hfree with ⟨rfl, h0⟩ | ⟨rfl, h0, h1⟩
    · exact ⟨by simp [MAX_LOGICAL_CONNECTIONS], by simpa [ControllerState.slot] using h0,
        fun j hj => absurd hj (by omega)⟩
    · refine ⟨by simp [MAX_LOGICAL_CONNECTIONS], by simpa [ControllerState.slot] using h1,
        fun j hj => ?_⟩
      have : j = 0 := by omega
      subst this
      simpa [ControllerState.slot] using h0
  · intro huniq
    cases hres : connCreateResult s cmd with
    | error st =>
      have hst : (core_conn_create s cmd).1 = s := by simp [core_conn_create, hres]
      rw [hst]
      exact huniq
    | ok r =>
      obtain ⟨i, s2⟩ := r
      obtain ⟨rid, rpt, hfree, _, _, hdup, hs2⟩ := connCreateResult_ok_inv s cmd i s2 hres
      push_neg at hdup
      have hst : (core_conn_create s cmd).1 = s2 := by simp [core_conn_create, hres]
      rw [hst, hs2]
      rcases freeConnId_cases s i hfree with ⟨rfl, h0⟩ | ⟨rfl, h0, h1⟩
      · rw [show s.setSlot 0 (some (LogicalConnection.RemoteNfcEndpoint rid rpt))
            = { s with lc0 := some (LogicalConnection.RemoteNfcEndpoint rid rpt) }
            from rfl]
        unfold uniqOpen
        right
        intro hcontra
        exact hdup.2 hcontra.symm
      · rw [show s.setSlot 1 (some (LogicalConnection.RemoteNfcEndpoint rid rpt))
            = { s with lc1 := some (LogicalConnection.RemoteNfcEndpoint rid rpt) }
            from rfl]
        unfold uniqOpen
        right
        intro hcontra
        exact hdup.1 hcontra

/-- Witness for C6 (spec scenario 3): creating a RemoteNfcEndpoint connection
with RfDiscovery parameter [0x01, 0x04] on a fresh controller succeeds with
conn_id 0, max payload 255 and 255 credits, recording the connection. -/
theorem core_conn_create_spec_witness :
    core_conn_create ControllerState.initial
        ⟨DestinationType.RemoteNfcEndpoint,
         [⟨DestinationSpecificParameterId.RfDiscovery, [1, 4]⟩]⟩
      = (ControllerState.initial.setSlot 0
           (some (LogicalConnection.RemoteNfcEndpoint 1 RfProtocolType.IsoDep)),
         ⟨Status.Ok, 255, 255, 0⟩) := by
  have h := (core_conn_create_spec ControllerState.initial
      ⟨DestinationType.RemoteNfcEndpoint,
       [⟨DestinationSpecificParameterId.RfDiscovery, [1, 4]⟩]⟩).2.2.2.2.2.1
  exact h 0 1 RfProtocolType.IsoDep rfl rfl rfl (by decide)
/-! ## Inbound reassembly and callback events (claim C1) -/

theorem specialize_getD (q : DataPacket) :
    (DataPacket.specialize q).getD [] = q.payload := by
  cases hq : q.payload with
  | nil => simp [DataPacket.specialize, hq]
  | cons a t => simp [DataPacket.specialize, hq]

theorem reassembleBuffer_eq (first : DataPacket) (rest : List DataPacket) :
    reassembleBuffer (first :: rest)
      = 0 :: (first.toBytes ++ (rest.map DataPacket.payload).flatten) := by
  simp [reassembleBuffer, specialize_getD]

theorem processSegments_nil (cp : ConnectionParameters) :
    processSegments cp [] = Except.ok (cp, []) := rfl

theorem processSegments_cons (cp : ConnectionParameters) (pkt : DataPacket)
    (rest : List DataPacket) :
    processSegments cp (pkt :: rest) =
      match sendCallbackConn cp pkt with
      | .error e => .error e
      | .ok r =>
        match processSegments r.1 rest with
        | .error e => .error e
        | .ok r2 => .ok (r2.1, r.2.2 ++ r2.2) := rfl

theorem sendCallbackConn_first (cp : ConnectionParameters) (pkt : DataPacket)
    (hcb : cp.callback = some ()) (hq : cp.recvq = [])
    (hpbf : pkt.pbf = PacketBoundaryFlag.Incomplete) :
    ∃ cp2 sent, sendCallbackConn cp pkt = Except.ok (cp2, sent, [⟨pkt.conn_id, 5, []⟩]) ∧
      cp2.callback = some () ∧ cp2.recvq = [pkt] := by
  by_cases hcr : 0 < pkt.cr
  · simp only [sendCallbackConn, if_pos hcr]
    rw [if_neg (show ¬pkt.pbf = PacketBoundaryFlag.CompleteOrFinal by simp [hpbf])]
    rw [if_pos (show (addCreditsConn cp pkt.cr).1.recvq = [] by simp [addCreditsConn, hq])]
    rw [show (addCreditsConn cp pkt.cr).1.callback = some () by simp [addCreditsConn, hcb]]
    refine ⟨_, _, rfl, ?_, ?_⟩ <;> simp [addCreditsConn, hcb, hq]
  · simp only [sendCallbackConn, if_neg hcr]
    rw [if_neg (show ¬pkt.pbf = PacketBoundaryFlag.CompleteOrFinal by simp [hpbf])]
    rw [if_pos hq, hcb]
    refine ⟨_, _, rfl, ?_, ?_⟩ <;> simp [hq]

theorem sendCallbackConn_mid (cp : ConnectionParameters) (pkt : DataPacket)
    (hcb : cp.callback = some ()) (hne : cp.recvq ≠ [])
    (hpbf : pkt.pbf = PacketBoundaryFlag.Incomplete) :
    ∃ cp2 sent, sendCallbackConn cp pkt = Except.ok (cp2, sent, []) ∧
      cp2.callback = some () ∧ cp2.recvq = cp.recvq ++ [pkt] := by
  by_cases hcr : 0 < pkt.cr
  · simp only [sendCallbackConn, if_pos hcr]
    rw [if_neg (show ¬pkt.pbf = PacketBoundaryFlag.CompleteOrFinal by simp [hpbf])]
    rw [if_neg (show ¬(addCreditsConn cp pkt.cr).1.recvq = [] by
      simpa [addCreditsConn] using hne)]
    refine ⟨_, _, rfl, ?_, ?_⟩ <;> simp [addCreditsConn, hcb]
  · simp only [sendCallbackConn, if_neg hcr]
    rw [if_neg (show ¬pkt.pbf = PacketBoundaryFlag.CompleteOrFinal by simp [hpbf])]
    rw [if_neg hne]
    refine ⟨_, _, rfl, ?_, ?_⟩ <;> simp [hcb]

theorem sendCallbackConn_done (cp : ConnectionParameters) (pkt : DataPacket)
    (hcb : cp.callback = some ())
    (hpbf : pkt.pbf = PacketBoundaryFlag.CompleteOrFinal) :
    ∃ cp2 sent, sendCallbackConn cp pkt
        = Except.ok (cp2, sent,
            [⟨pkt.conn_id, 3, reassembleBuffer (cp.recvq ++ [pkt])⟩]) ∧
      cp2.recvq = [] := by
  by_cases hcr : 0 < pkt.cr
  · simp only [sendCallbackConn, if_pos hcr]
    rw [if_pos hpbf]
    rw [show (addCreditsConn cp pkt.cr).1.recvq = cp.recvq by simp [addCreditsConn]]
    rw [show (addCreditsConn cp pkt.cr).1.callback = some () by simp [addCreditsConn, hcb]]
    exact ⟨_, _, rfl, rfl⟩
  · simp only [sendCallbackConn, if_neg hcr]
    rw [if_pos hpbf, hcb]
    exact ⟨_, _, rfl, rfl⟩

theorem processSegments_mids (mids : List DataPacket) :
    ∀ cp : ConnectionParameters, cp.callback = some () → cp.recvq ≠ [] →
      (∀ p ∈ mids, p.pbf = PacketBoundaryFlag.Incomplete) →
      ∃ cp2, processSegments cp mids = Except.ok (cp2, []) ∧
        cp2.callback = some () ∧ cp2.recvq = cp.recvq ++ mids := by
  induction mids with
  | nil =>
    intro cp hcb hne _
    exact ⟨cp, rfl, hcb, by simp⟩
  | cons m rest ih =>
    intro cp hcb hne hall
    obtain ⟨cp2, sent, heq, hcb2, hrq2⟩ :=
      sendCallbackConn_mid cp m hcb hne (hall m (List.mem_cons_self m rest))
    obtain ⟨cp3, heq3, hcb3, hrq3⟩ := ih cp2 hcb2
      (by rw [hrq2]; simp)
      (fun p hp => hall p (List.mem_cons_of_mem m hp))
    refine ⟨cp3, ?_, hcb3, ?_⟩
    · simp [processSegments_cons, heq, heq3]
    · rw [hrq3, hrq2]
      simp

theorem processSegments_append (xs ys : List DataPacket) :
    ∀ cp : ConnectionParameters,
      processSegments cp (xs ++ ys) =
        match processSegments cp xs with
        | .error e => .error e
        | .ok r =>
          match processSegments r.1 ys with
          | .error e => .error e
          | .ok r2 => .ok (r2.1, r.2 ++ r2.2) := by
  induction xs with
  | nil =>
    intro cp
    cases h : processSegments cp ys <;> simp [processSegments, h]
  | cons x rest ih =>
    intro cp
    cases h : sendCallbackConn cp x with
    | error e =>
      simp [List.cons_append, processSegments_cons, h]
    | ok r =>
      simp only [List.cons_append, processSegments_cons, h, ih r.1]
      cases h2 : processSegments r.1 rest with
      | error e => simp
      | ok r2 =>
        cases h3 : processSegments r2.1 ys with
        | error e => simp [h3]
        | ok r3 => simp [h3]

/-- Claim C1 as amended: for an open connection with an installed callback and
an empty receive queue, a multi-segment inbound message (one or more
Incomplete segments followed by a CompleteOrFinal segment, all on conn c)
fires the callback exactly once with event DATA_START (= 5) and empty payload
at the first segment, and exactly once with event DATA (= 3) whose payload is
a single status byte 0 followed by the FIRST segment's full serialized packet
bytes (3-byte header + payload) and then the concatenation of the remaining
segments' payloads; the receive queue is empty afterwards. -/
theorem reassembly_events (cp : ConnectionParameters) (c : Nat)
    (first last : DataPacket) (mids : List DataPacket)
    (hcb : cp.callback = some ()) (hq : cp.recvq = [])
    (hf : first.pbf = PacketBoundaryFlag.Incomplete)
    (hm : ∀ p ∈ mids, p.pbf = PacketBoundaryFlag.Incomplete)
    (hl : last.pbf = PacketBoundaryFlag.CompleteOrFinal)
    (hcf : first.conn_id = c) (hcl : last.conn_id = c) :
    Except.map (fun r => (r.1.recvq, r.2))
        (processSegments cp (first :: (mids ++ [last])))
      = Except.ok ([],
          [⟨c, 5, []⟩,
           ⟨c, 3, 0 :: (first.toBytes
              ++ ((mids ++ [last]).map DataPacket.payload).flatten)⟩]) := by
  obtain ⟨cp1, sent1, heq1, hcb1, hrq1⟩ := sendCallbackConn_first cp first hcb hq hf
  obtain ⟨cp2, heq2, hcb2, hrq2⟩ := processSegments_mids mids cp1 hcb1
    (by rw [hrq1]; simp) hm
  obtain ⟨cp3, sent3, heq3, hrq3⟩ := sendCallbackConn_done cp2 last hcb2 hl
  have hrw : cp2.recvq ++ [last] = first :: (mids ++ [last]) := by
    rw [hrq2, hrq1]
    simp
  have htail : processSegments cp1 (mids ++ [last])
      = Except.ok (cp3, [⟨c, 3, 0 :: (first.toBytes
          ++ ((mids ++ [last]).map DataPacket.payload).flatten)⟩]) := by
    rw [processSegments_append mids [last] cp1, heq2]
    rw [hrw] at heq3
    rw [reassembleBuffer_eq first (mids ++ [last]), hcl] at heq3
    simp [processSegments_cons, processSegments_nil, heq3]
  simp [processSegments_cons, heq1, htail, hcf, Except.map, hrq3]

/-- Witness for the amended C1: a concrete two-segment message on conn 2
yields exactly one DATA_START event and one DATA event whose payload is the
status byte, the first segment's serialized bytes [0x12, 0x00, 0x01, 0xAA]
and the second segment's payload [0xBB]. -/
theorem reassembly_events_witness :
    Except.map (fun r => (r.1.recvq, r.2))
        (processSegments ⟨some (), 255, 0, [], []⟩
          [⟨2, PacketBoundaryFlag.Incomplete, 0, [170]⟩,
           ⟨2, PacketBoundaryFlag.CompleteOrFinal, 0, [187]⟩])
      = Except.ok ([], [⟨2, 5, []⟩, ⟨2, 3, [0, 18, 0, 1, 170, 187]⟩]) := by
  have h := reassembly_events ⟨some (), 255, 0, [], []⟩ 2
    ⟨2, PacketBoundaryFlag.Incomplete, 0, [170]⟩
    ⟨2, PacketBoundaryFlag.CompleteOrFinal, 0, [187]⟩ []
    rfl rfl rfl (by simp) rfl rfl rfl
  simpa using h

/-- Claim C1 counterexample: on a concrete two-segment message the DATA event
payload the code delivers is the status byte followed by the first segment's
full serialized bytes (header included) and the remaining payloads — not the
status byte followed by the concatenation of the segments' payloads as the
claim states: [0, 0x12, 0x00, 0x01, 0xAA, 0xBB] versus [0, 0xAA, 0xBB]. -/
theorem reassembly_payload_counterexample :
    Except.map (fun r => (r.1.recvq, r.2))
        (processSegments ⟨some (), 255, 0, [], []⟩
          [⟨2, PacketBoundaryFlag.Incomplete, 0, [170]⟩,
           ⟨2, PacketBoundaryFlag.CompleteOrFinal, 0, [187]⟩])
      = Except.ok ([], [⟨2, 5, []⟩, ⟨2, 3, [0, 18, 0, 1, 170, 187]⟩]) ∧
    ([0, 18, 0, 1, 170, 187] : List Nat)
      ≠ 0 :: ([[170], [187]] : List (List Nat)).flatten :=
  ⟨rfl, by decide⟩
